import Mathlib

/-!
Verification development for the parameter-normalization layer and the
response-size manager of an OpenSCAD MCP server
(`src/openscad_mcp/server.py`).

The Python functions are shallowly embedded: Python strings become
`List Char`, Python values that can flow through the flexible parsers
become the inductive `PyVal`, raised exceptions become `Except PErr`,
and the two external side-effecting helpers of the response-size
manager (PIL recompression in `compress_base64_image`, and the
filesystem write in `save_image_to_file`) become oracle functions in an
environment record `RSEnv`, since their bodies only shuttle bytes
through external libraries.  Python `float` values are modelled as
exact rationals (`mkRat`); IEEE rounding is not modelled, and the
single float comparison in the code (`compression_ratio < 0.7`) is
modelled by the exact cross-multiplied comparison on lengths.
-/

/-- Python exceptions, split by what the `except` clauses in the source
catch: `.value` covers `ValueError` (and its subclass
`json.JSONDecodeError`), `.other` covers exceptions such as `TypeError`
and `OverflowError` that the source's `except (json.JSONDecodeError,
ValueError)` handlers do not catch. -/
inductive PErr where
  | value (msg : String)
  | other (msg : String)
deriving DecidableEq

/-- Python floats as they appear in this code: a finite value (modelled
as an exact rational), an infinity, or NaN. -/
inductive PyFloat where
  | val (q : Rat)
  | inf (neg : Bool)
  | nan
deriving DecidableEq

/-- Python values that can flow through the flexible parameter parsers:
ints, floats, bools, strings, None, lists and string-keyed dicts (the
shapes `json.loads` can produce, plus what the key=value fallback
coerces to).  Python strings are `List Char`. -/
inductive PyVal where
  | int (n : Int)
  | float (q : Rat)
  | floatInf (neg : Bool)
  | floatNaN
  | bool (b : Bool)
  | str (s : List Char)
  | list (xs : List PyVal)
  | dict (kvs : List (List Char × PyVal))
  | none

/-- The whitespace characters stripped by Python `str.strip()`
(ASCII subset; unicode whitespace is not modelled). -/
def isPySpace (c : Char) : Bool :=
  c = ' ' || c = '\t' || c = '\n' || c = '\r' || c = '\x0b' || c = '\x0c'

/-- Drop leading Python whitespace. -/
def pyStripLeft : List Char → List Char
  | [] => []
  | c :: rest => if isPySpace c then pyStripLeft rest else c :: rest

/-- Python `str.strip()`: drop leading and trailing whitespace. -/
def pyStrip (s : List Char) : List Char :=
  ((pyStripLeft s).reverse |> pyStripLeft).reverse

/-- Python `str.split(sep)` for a one-character separator: split at
every occurrence, keeping empty segments. -/
def pySplitChar (sep : Char) : List Char → List (List Char)
  | [] => [[]]
  | c :: rest =>
    let r := pySplitChar sep rest
    if c = sep then [] :: r
    else
      match r with
      | [] => [[c]]
      | h :: t => (c :: h) :: t

/-- Python `str.split(sep, 1)` restricted to the case where the
separator occurs: returns the parts before and after its first
occurrence, or `none` when the separator is absent. -/
def pySplitOnce (sep : Char) : List Char → Option (List Char × List Char)
  | [] => Option.none
  | c :: rest =>
    if c = sep then some ([], rest)
    else
      match pySplitOnce sep rest with
      | Option.none => Option.none
      | some (a, b) => some (c :: a, b)

/-- Python `str.lower()` (ASCII). -/
def pyLower (s : List Char) : List Char := s.map Char.toLower

/-- Decimal value of a digit string. -/
def digitsToNat (s : List Char) : Nat :=
  s.foldl (fun a c => 10 * a + (c.toNat - 48)) 0

/-- Python `int(str)`: optional surrounding whitespace, optional sign,
then decimal digits.  (Numeric underscores, accepted by Python between
digits, are not modelled.) -/
def pyIntParseStr (s : List Char) : Option Int :=
  match pyStrip s with
  | [] => Option.none
  | c :: rest =>
    if c = '+' then
      if rest ≠ [] ∧ rest.all Char.isDigit then some (digitsToNat rest) else Option.none
    else if c = '-' then
      if rest ≠ [] ∧ rest.all Char.isDigit then some (-(digitsToNat rest : Int)) else Option.none
    else if (c :: rest).all Char.isDigit then some (digitsToNat (c :: rest))
    else Option.none

/-- Maximal digit prefix of a character list, with the remainder. -/
def takeDigits : List Char → List Char × List Char
  | [] => ([], [])
  | c :: rest =>
    if c.isDigit then
      let (a, b) := takeDigits rest
      (c :: a, b)
    else ([], c :: rest)

/-- Assemble a finite float value `sign * (ip.fp) * 10^ex` as an exact
rational, from the integer-part digits, fraction digits and exponent. -/
def ratOfParts (neg : Bool) (ip fp : List Char) (ex : Int) : Rat :=
  let mant : Int := (digitsToNat ip * 10 ^ fp.length + digitsToNat fp : Nat)
  let mant := if neg then -mant else mant
  if 0 ≤ ex then mkRat (mant * 10 ^ ex.toNat) (10 ^ fp.length)
  else mkRat mant (10 ^ fp.length * 10 ^ (-ex).toNat)

/-- Python `float(str)`: optional whitespace and sign, then either an
inf/infinity/nan literal (case-insensitive) or a decimal mantissa with
optional fraction and exponent.  (Numeric underscores are not
modelled.) -/
def pyFloatParse (s : List Char) : Option PyFloat :=
  let t := pyStrip s
  let (neg, u) :=
    match t with
    | '+' :: r => (false, r)
    | '-' :: r => (true, r)
    | _ => (false, t)
  let lu := pyLower u
  if lu = "inf".data ∨ lu = "infinity".data then some (.inf neg)
  else if lu = "nan".data then some .nan
  else
    let (ip, r1) := takeDigits u
    let (fp, r2) :=
      match r1 with
      | '.' :: r => takeDigits r
      | _ => ([], r1)
    let hadDot : Bool := match r1 with | '.' :: _ => true | _ => false
    let r2 := if hadDot then r2 else r1
    if ip = [] ∧ fp = [] then Option.none
    else
      match r2 with
      | [] => some (.val (ratOfParts neg ip fp 0))
      | e :: r3 =>
        if e = 'e' ∨ e = 'E' then
          let (esign, r4) :=
            match r3 with
            | '+' :: r => ((1 : Int), r)
            | '-' :: r => ((-1 : Int), r)
            | _ => ((1 : Int), r3)
          let (ed, r5) := takeDigits r4
          if ed = [] ∨ r5 ≠ [] then Option.none
          else some (.val (ratOfParts neg ip fp (esign * digitsToNat ed)))
        else Option.none

/-- Python `float(x)` on a `PyVal`: numbers and bools convert, strings
are parsed, anything else is a `TypeError` (uncaught by the source's
`except (json.JSONDecodeError, ValueError)` handlers). -/
def pyFloatOf : PyVal → Except PErr PyFloat
  | .int n => .ok (.val n)
  | .float q => .ok (.val q)
  | .floatInf b => .ok (.inf b)
  | .floatNaN => .ok .nan
  | .bool b => .ok (.val (if b then 1 else 0))
  | .str s =>
    match pyFloatParse s with
    | some f => .ok f
    | Option.none => .error (.value ("could not convert string to float: " ++ String.mk s))
  | .none => .error (.other "TypeError: float() argument must not be None")
  | .list _ => .error (.other "TypeError: float() argument must not be a list")
  | .dict _ => .error (.other "TypeError: float() argument must not be a dict")

/-- Python `int(x)` on a `PyVal`: ints pass through, floats truncate
toward zero (inf raises `OverflowError`, NaN raises `ValueError`),
bools convert, strings are parsed, anything else is a `TypeError`. -/
def pyIntOf : PyVal → Except PErr Int
  | .int n => .ok n
  | .float q => .ok (Int.tdiv q.num q.den)
  | .floatInf _ => .error (.other "OverflowError: cannot convert float infinity to integer")
  | .floatNaN => .error (.value "cannot convert float NaN to integer")
  | .bool b => .ok (if b then 1 else 0)
  | .str s =>
    match pyIntParseStr s with
    | some n => .ok n
    | Option.none => .error (.value ("invalid literal for int() with base 10: " ++ String.mk s))
  | .none => .error (.other "TypeError: int() argument must not be None")
  | .list _ => .error (.other "TypeError: int() argument must not be a list")
  | .dict _ => .error (.other "TypeError: int() argument must not be a dict")

/-- Insert or overwrite a key in an association list, keeping the
position of an existing key — Python `dict` assignment semantics. -/
def assocSet {α β : Type} [DecidableEq α] (k : α) (v : β) : List (α × β) → List (α × β)
  | [] => [(k, v)]
  | (k2, v2) :: rest => if k = k2 then (k, v) :: rest else (k2, v2) :: assocSet k v rest

/-- Python `d[k]` lookup on the association lists built by `assocSet`. -/
def assocGet (kvs : List (List Char × PyVal)) (k : List Char) : Option PyVal :=
  (kvs.find? (fun p => p.1 = k)).map (·.2)

/-- JSON insignificant whitespace. -/
def jsonWs (c : Char) : Bool := c = ' ' || c = '\t' || c = '\n' || c = '\r'

/-- Hex digit value. -/
def hexVal (c : Char) : Option Nat :=
  if '0' ≤ c ∧ c ≤ '9' then some (c.toNat - 48)
  else if 'a' ≤ c ∧ c ≤ 'f' then some (c.toNat - 87)
  else if 'A' ≤ c ∧ c ≤ 'F' then some (c.toNat - 55)
  else Option.none

/-- Value of four hex digits. -/
def hex4 (a b c d : Char) : Option Nat :=
  match hexVal a, hexVal b, hexVal c, hexVal d with
  | some x, some y, some z, some w => some (((x * 16 + y) * 16 + z) * 16 + w)
  | _, _, _, _ => Option.none

/-- Body of a JSON string, after the opening quote: returns the decoded
characters and the input after the closing quote.  Mirrors Python
`json.loads` in strict mode: unescaped control characters and invalid
escapes fail.  Surrogate pairs in `\uXXXX` escapes are combined; a lone
surrogate (which Python keeps in the `str`) has no `Char`
representation and is modelled as the NUL character. -/
def jsonStringBody (fuel : Nat) (s : List Char) : Option (List Char × List Char) :=
  match fuel with
  | 0 => Option.none
  | fuel + 1 =>
    match s with
    | [] => Option.none
    | '"' :: rest => some ([], rest)
    | '\\' :: e :: rest =>
      let push (c : Char) (r : List Char) : Option (List Char × List Char) :=
        match jsonStringBody fuel r with
        | some (cs, r2) => some (c :: cs, r2)
        | Option.none => Option.none
      match e with
      | '"' => push '"' rest
      | '\\' => push '\\' rest
      | '/' => push '/' rest
      | 'b' => push '\x08' rest
      | 'f' => push '\x0c' rest
      | 'n' => push '\n' rest
      | 'r' => push '\r' rest
      | 't' => push '\t' rest
      | 'u' =>
        match rest with
        | a :: b :: c :: d :: rest2 =>
          match hex4 a b c d with
          | Option.none => Option.none
          | some n =>
            if 0xD800 ≤ n ∧ n ≤ 0xDBFF then
              match rest2 with
              | '\\' :: 'u' :: a2 :: b2 :: c2 :: d2 :: rest3 =>
                match hex4 a2 b2 c2 d2 with
                | some m =>
                  if 0xDC00 ≤ m ∧ m ≤ 0xDFFF then
                    push (Char.ofNat (0x10000 + (n - 0xD800) * 0x400 + (m - 0xDC00))) rest3
                  else push (Char.ofNat n) rest2
                | Option.none => Option.none
              | _ => push (Char.ofNat n) rest2
            else push (Char.ofNat n) rest2
        | _ => Option.none
      | _ => Option.none
    | c :: rest => if c.toNat < 0x20 then Option.none else
        match jsonStringBody fuel rest with
        | some (cs, r2) => some (c :: cs, r2)
        | Option.none => Option.none

/-- A JSON number starting at the head of the input (after any leading
minus handled here): grammar `-? (0 | [1-9][0-9]*) frac? exp?`.  A
number without fraction or exponent becomes a Python `int`, otherwise a
Python `float`. -/
def jsonNumber (s : List Char) : Option (PyVal × List Char) :=
  let (neg, u) := match s with | '-' :: r => (true, r) | _ => (false, s)
  let ipOpt : Option (List Char × List Char) :=
    match u with
    | '0' :: r => some (['0'], r)
    | c :: _ =>
      if c.isDigit then
        let (d, r) := takeDigits u
        some (d, r)
      else Option.none
    | [] => Option.none
  match ipOpt with
  | Option.none => Option.none
  | some (ip, r1) =>
    let fracOpt : Option (List Char × List Char) :=
      match r1 with
      | '.' :: r =>
        let (d, r2) := takeDigits r
        if d = [] then Option.none else some (d, r2)
      | _ => some ([], r1)
    match fracOpt with
    | Option.none => Option.none
    | some (fp, r2) =>
      let expOpt : Option (Option Int × List Char) :=
        match r2 with
        | e :: r3 =>
          if e = 'e' ∨ e = 'E' then
            let (es, r4) :=
              match r3 with
              | '+' :: r => ((1 : Int), r)
              | '-' :: r => ((-1 : Int), r)
              | _ => ((1 : Int), r3)
            let (ed, r5) := takeDigits r4
            if ed = [] then Option.none else some (some (es * digitsToNat ed), r5)
          else some (Option.none, r2)
        | [] => some (Option.none, r2)
      match expOpt with
      | Option.none => Option.none
      | some (Option.none, rest) =>
        if fp = [] then
          some (.int (if neg then -(digitsToNat ip : Int) else (digitsToNat ip : Int)), rest)
        else some (.float (ratOfParts neg ip fp 0), rest)
      | some (some ex, rest) => some (.float (ratOfParts neg ip fp ex), rest)

mutual

/-- Parse one JSON value (Python `json.loads` grammar, including the
non-standard `NaN`/`Infinity` constants Python accepts by default),
returning the value and the remaining input. -/
def jsonValue : Nat → List Char → Option (PyVal × List Char)
  | 0, _ => Option.none
  | fuel + 1, s =>
    match s.dropWhile jsonWs with
    | [] => Option.none
    | '"' :: rest =>
      match jsonStringBody (rest.length + 1) rest with
      | some (cs, r) => some (.str cs, r)
      | Option.none => Option.none
    | '\x7b' :: rest => jsonMembers fuel rest [] true
    | '[' :: rest => jsonElements fuel rest [] true
    | 't' :: 'r' :: 'u' :: 'e' :: rest => some (.bool true, rest)
    | 'f' :: 'a' :: 'l' :: 's' :: 'e' :: rest => some (.bool false, rest)
    | 'n' :: 'u' :: 'l' :: 'l' :: rest => some (.none, rest)
    | 'N' :: 'a' :: 'N' :: rest => some (.floatNaN, rest)
    | 'I' :: 'n' :: 'f' :: 'i' :: 'n' :: 'i' :: 't' :: 'y' :: rest => some (.floatInf false, rest)
    | '-' :: 'I' :: 'n' :: 'f' :: 'i' :: 'n' :: 'i' :: 't' :: 'y' :: rest =>
      some (.floatInf true, rest)
    | t => jsonNumber t

/-- Parse the members of a JSON object after the opening brace.
`first` is true before any member has been read.  Duplicate keys
overwrite in place, as in a Python dict. -/
def jsonMembers : Nat → List Char → List (List Char × PyVal) → Bool →
    Option (PyVal × List Char)
  | 0, _, _, _ => Option.none
  | fuel + 1, s, acc, first =>
    match s.dropWhile jsonWs with
    | '\x7d' :: rest => if first then some (.dict acc, rest) else Option.none
    | t =>
      let t := if first then t else
        match t with
        | ',' :: r => r.dropWhile jsonWs
        | _ => []
      match t with
      | '"' :: rest =>
        match jsonStringBody (rest.length + 1) rest with
        | Option.none => Option.none
        | some (k, r1) =>
          match r1.dropWhile jsonWs with
          | ':' :: r2 =>
            match jsonValue fuel r2 with
            | Option.none => Option.none
            | some (v, r3) =>
              match r3.dropWhile jsonWs with
              | '\x7d' :: r4 => some (.dict (assocSet k v acc), r4)
              | ',' :: _ => jsonMembers fuel (r3.dropWhile jsonWs) (assocSet k v acc) false
              | _ => Option.none
          | _ => Option.none
      | _ => Option.none

/-- Parse the elements of a JSON array after the opening bracket. -/
def jsonElements : Nat → List Char → List PyVal → Bool → Option (PyVal × List Char)
  | 0, _, _, _ => Option.none
  | fuel + 1, s, acc, first =>
    match s.dropWhile jsonWs with
    | ']' :: rest => if first then some (.list acc.reverse, rest) else Option.none
    | t =>
      let t := if first then t else
        match t with
        | ',' :: r => r
        | _ => []
      match jsonValue fuel t with
      | Option.none => Option.none
      | some (v, r1) =>
        match r1.dropWhile jsonWs with
        | ']' :: r2 => some (.list (v :: acc).reverse, r2)
        | ',' :: _ => jsonElements fuel (r1.dropWhile jsonWs) (v :: acc) false
        | _ => Option.none

end

/-- Python `json.loads`: parse one JSON value and require only
whitespace after it. -/
def pyJsonLoads (s : List Char) : Option PyVal :=
  match jsonValue (4 * s.length + 8) s with
  | some (v, rest) => if rest.dropWhile jsonWs = [] then some v else Option.none
  | Option.none => Option.none

/-- Rendering of `type(x)` for error messages (simplified: the Python
messages embed e.g. the class name). -/
def pyTypeName : PyVal → String
  | .int _ => "int"
  | .float _ | .floatInf _ | .floatNaN => "float"
  | .bool _ => "bool"
  | .str _ => "str"
  | .list _ => "list"
  | .dict _ => "dict"
  | .none => "NoneType"

/-- The runtime shapes `parse_camera_param` can receive, per its
`Union[str, List[float], Dict[str, float], None]` signature (list and
dict element types are not enforced at runtime, hence `PyVal`). -/
inductive CamParam where
  | none
  | list (xs : List PyVal)
  | dict (kvs : List (List Char × PyVal))
  | str (s : List Char)

/-- `parse_camera_param` (server.py:184-224): normalize a camera
parameter to a list of three floats, accepting a 3-element list, an
x/y/z dict, or a JSON string decoding to either; `None` returns the
default unchanged. -/
def parse_camera_param (param : CamParam) (default : List PyFloat) :
    Except PErr (List PyFloat) :=
  match param with
  | .none => .ok default
  | .list xs =>
    if xs.length = 3 then xs.mapM pyFloatOf
    else .error (.value ("Expected 3 values for camera parameter, got " ++ toString xs.length))
  | .dict kvs =>
    match assocGet kvs "x".data, assocGet kvs "y".data, assocGet kvs "z".data with
    | some vx, some vy, some vz => [vx, vy, vz].mapM pyFloatOf
    | _, _, _ => .error (.value "Dict must have x, y, z keys")
  | .str s0 =>
    let s := pyStrip s0
    -- try-block: json.loads then shape dispatch; `except (json.JSONDecodeError,
    -- ValueError)` re-raises as ValueError naming the original string, while a
    -- TypeError from float() propagates unwrapped.
    let inner : Except PErr (List PyFloat) :=
      match pyJsonLoads s with
      | some (PyVal.list xs) =>
        if xs.length = 3 then xs.mapM pyFloatOf
        else .error (.value "Parsed value must be a list of 3 numbers or dict with x,y,z keys")
      | some (PyVal.dict kvs) =>
        match assocGet kvs "x".data, assocGet kvs "y".data, assocGet kvs "z".data with
        | some vx, some vy, some vz => [vx, vy, vz].mapM pyFloatOf
        | _, _, _ =>
          .error (.value "Parsed value must be a list of 3 numbers or dict with x,y,z keys")
      | some _ =>
        .error (.value "Parsed value must be a list of 3 numbers or dict with x,y,z keys")
      | Option.none => .error (.value "JSONDecodeError")
    match inner with
    | .ok v => .ok v
    | .error (.value m) =>
      .error (.value ("Cannot parse " ++ String.mk s ++ " as camera parameter: " ++ m))
    | .error e => .error e

/-- The runtime shapes `parse_list_param` can receive. -/
inductive ListParam where
  | none
  | list (xs : List PyVal)
  | str (s : List Char)

/-- `parse_list_param` (server.py:227-273): normalize a flexible list
parameter.  A string starting with `[` tries a JSON array decode first
(a successful decode to a non-list raises; a decode failure falls
through); then a comma-separated string is split with empty segments
dropped; otherwise the whole string is one element. -/
def parse_list_param (param : ListParam) (default : List PyVal) :
    Except PErr (List PyVal) :=
  match param with
  | .none => .ok default
  | .list xs => .ok xs
  | .str s0 =>
    let s := pyStrip s0
    let jsonStep : Except PErr (Option (List PyVal)) :=
      if s.head? = some '[' then
        match pyJsonLoads s with
        | some (PyVal.list xs) => .ok (some xs)
        | some v => .error (.value ("JSON parsed to " ++ pyTypeName v ++ ", expected list"))
        | Option.none => .ok Option.none
      else .ok Option.none
    match jsonStep with
    | .error e => .error e
    | .ok (some xs) => .ok xs
    | .ok Option.none =>
      if s.contains ',' then
        .ok ((((pySplitChar ',' s).map pyStrip).filter (fun item => !item.isEmpty)).map
          PyVal.str)
      else .ok [PyVal.str s]

/-- The runtime shapes `parse_dict_param` can receive. -/
inductive DictParam where
  | none
  | dict (kvs : List (List Char × PyVal))
  | str (s : List Char)

/-- Coercion of a key=value fallback value (server.py:326-341): try
`int` when the value has no decimal point, else `float`; on a
`ValueError`, recognize case-insensitive true/false as booleans, else
keep the string. -/
def coerceKVValue (v : List Char) : PyVal :=
  let boolOrStr : PyVal :=
    if pyLower v = "true".data then PyVal.bool true
    else if pyLower v = "false".data then PyVal.bool false
    else PyVal.str v
  if v.contains '.' then
    match pyFloatParse v with
    | some (PyFloat.val q) => PyVal.float q
    | some (PyFloat.inf b) => PyVal.floatInf b
    | some PyFloat.nan => PyVal.floatNaN
    | Option.none => boolOrStr
  else
    match pyIntParseStr v with
    | some n => PyVal.int n
    | Option.none => boolOrStr

/-- The key=value fallback of `parse_dict_param` (server.py:316-342):
split on commas, skip pairs without `=`, trim keys and values, coerce
values. -/
def kvFallback (s : List Char) : List (List Char × PyVal) :=
  (pySplitChar ',' s).foldl
    (fun result pair0 =>
      let pair := pyStrip pair0
      if pair.contains '=' then
        match pySplitOnce '=' pair with
        | some (k, v) => assocSet (pyStrip k) (coerceKVValue (pyStrip v)) result
        | Option.none => result
      else result)
    []

/-- `parse_dict_param` (server.py:276-344): normalize a flexible dict
parameter.  A string starting with a brace tries a JSON object decode
first (success on a non-dict raises; a decode failure falls through);
then a string containing `=` goes through the key=value fallback;
otherwise the call raises. -/
def parse_dict_param (param : DictParam) (default : List (List Char × PyVal)) :
    Except PErr (List (List Char × PyVal)) :=
  match param with
  | .none => .ok default
  | .dict kvs => .ok kvs
  | .str s0 =>
    let s := pyStrip s0
    let jsonStep : Except PErr (Option (List (List Char × PyVal))) :=
      if s.head? = some '\x7b' then
        match pyJsonLoads s with
        | some (PyVal.dict kvs) => .ok (some kvs)
        | some v => .error (.value ("JSON parsed to " ++ pyTypeName v ++ ", expected dict"))
        | Option.none => .ok Option.none
      else .ok Option.none
    match jsonStep with
    | .error e => .error e
    | .ok (some kvs) => .ok kvs
    | .ok Option.none =>
      if s.contains '=' then .ok (kvFallback s)
      else .error (.value "Cannot parse dict from type str")

/-- The runtime shapes `parse_image_size_param` can receive. -/
inductive SizeParam where
  | none
  | list (xs : List PyVal)
  | tuple (xs : List PyVal)
  | str (s : List Char)

/-- `int()` coercion of a pair, propagating any error. -/
def intPair (a b : PyVal) : Except PErr (List Int) := do
  let ia ← pyIntOf a
  let ib ← pyIntOf b
  return [ia, ib]

/-- `parse_image_size_param` (server.py:347-406): normalize an image
size to `[int, int]`.  Lists and tuples must have exactly 2 elements; a
string starting with `[` tries a JSON decode (a `ValueError` during
decode or int-coercion is swallowed and parsing falls through); then a
string containing `x` is split on it; then a comma form applies; any
remaining shape raises. -/
def parse_image_size_param (param : SizeParam) (default : List Int) :
    Except PErr (List Int) :=
  match param with
  | .none => .ok default
  | .list xs =>
    match xs with
    | [a, b] => intPair a b
    | _ => .error (.value ("Image size must have 2 values, got " ++ toString xs.length))
  | .tuple xs =>
    match xs with
    | [a, b] => intPair a b
    | _ => .error (.value ("Image size must have 2 values, got " ++ toString xs.length))
  | .str s0 =>
    let s := pyStrip s0
    let jsonStep : Except PErr (Option (List Int)) :=
      if s.head? = some '[' then
        match pyJsonLoads s with
        | some (PyVal.list [a, b]) =>
          match pyIntOf a with
          | .error (.value _) => .ok Option.none
          | .error e => .error e
          | .ok ia =>
            match pyIntOf b with
            | .error (.value _) => .ok Option.none
            | .error e => .error e
            | .ok ib => .ok (some [ia, ib])
        | some _ => .ok Option.none
        | Option.none => .ok Option.none
      else .ok Option.none
    match jsonStep with
    | .error e => .error e
    | .ok (some r) => .ok r
    | .ok Option.none =>
      let xStep : Except PErr (Option (List Int)) :=
        if s.contains 'x' then
          match pySplitChar 'x' s with
          | [p0, p1] =>
            match pyIntParseStr (pyStrip p0) with
            | Option.none =>
              .error (.value ("invalid literal for int() with base 10: " ++
                String.mk (pyStrip p0)))
            | some ia =>
              match pyIntParseStr (pyStrip p1) with
              | Option.none =>
                .error (.value ("invalid literal for int() with base 10: " ++
                  String.mk (pyStrip p1)))
              | some ib => .ok (some [ia, ib])
          | _ => .ok Option.none
        else .ok Option.none
      match xStep with
      | .error e => .error e
      | .ok (some r) => .ok r
      | .ok Option.none =>
        let commaStep : Except PErr (Option (List Int)) :=
          if s.contains ',' ∧ ¬ (s.head? = some '[') then
            match pySplitChar ',' s with
            | [p0, p1] =>
              match pyIntParseStr (pyStrip p0) with
              | Option.none =>
                .error (.value ("invalid literal for int() with base 10: " ++
                  String.mk (pyStrip p0)))
              | some ia =>
                match pyIntParseStr (pyStrip p1) with
                | Option.none =>
                  .error (.value ("invalid literal for int() with base 10: " ++
                    String.mk (pyStrip p1)))
                | some ib => .ok (some [ia, ib])
            | _ => .ok Option.none
          else .ok Option.none
        match commaStep with
        | .error e => .error e
        | .ok (some r) => .ok r
        | .ok Option.none =>
          .error (.value ("Cannot parse image size from " ++ String.mk s))

/-- Length that one character contributes to Python
`json.dumps` output (default `ensure_ascii=True`): quote and backslash
and the short control escapes take 2 characters, other control and all
non-ASCII characters take a 6-character (or, beyond the BMP,
12-character) `\uXXXX` form, printable ASCII passes through. -/
def escLen (c : Char) : Nat :=
  if c = '"' ∨ c = '\\' then 2
  else if c = '\x08' ∨ c = '\t' ∨ c = '\n' ∨ c = '\x0c' ∨ c = '\r' then 2
  else if c.toNat < 0x20 ∨ 0x7e < c.toNat then (if c.toNat ≤ 0xFFFF then 6 else 12)
  else 1

/-- Length of the `json.dumps` serialization of a string. -/
def strDumpLen (s : List Char) : Nat := 2 + (s.map escLen).sum

/-- The payload collections `manage_response_size` accepts: a mapping
of name to base64 payload, or an ordered sequence of image records
(modelled by their `"data"` payloads; names are synthesized as
`image_i`). -/
inductive Images where
  | dict (entries : List (List Char × List Char))
  | list (datas : List (List Char))

/-- Length of the `json.dumps` serialization of the payload
collection, with the default `", "` and `": "` separators.  A
sequence element is serialized as its single-key record
`\x7b"data": <payload>\x7d`. -/
def imagesDumpLen : Images → Nat
  | .dict entries =>
    if entries.isEmpty then 2
    else 2 + (entries.map (fun p => strDumpLen p.1 + 2 + strDumpLen p.2)).sum +
      2 * (entries.length - 1)
  | .list datas =>
    if datas.isEmpty then 2
    else 2 + (datas.map (fun d => 10 + strDumpLen d)).sum + 2 * (datas.length - 1)

/-- `estimate_response_size` (server.py:408-423): length of the JSON
serialization of the data, integer-divided by 4. -/
def estimate_response_size (imgs : Images) : Nat := imagesDumpLen imgs / 4

/-- Oracles for the two helpers whose bodies call external libraries:
`compress` models `compress_base64_image` (PIL decode, PNG re-encode,
base64 re-encode — returns the compressed base64 payload or raises),
`save` models the directory creation, base64 decode and file write
inside `save_image_to_file` (returns the path written or raises), and
`mkFilename` models `f"\x7bname\x7d_\x7buuid4-hex-8\x7d.png"` whose
random suffix is outside the model. -/
structure RSEnv where
  compress : List Char → Except PErr (List Char)
  save : List Char → List Char → Except PErr (List Char)
  mkFilename : List Char → List Char

/-- `save_image_to_file` (server.py:426-457): any underlying failure is
re-raised as a `ValueError`. -/
def save_image_to_file (env : RSEnv) (data filename : List Char) :
    Except PErr (List Char) :=
  match env.save data filename with
  | .ok p => .ok p
  | .error _ => .error (.value "Failed to save image to file")

/-- The per-image descriptor variants built by `manage_response_size`:
a file-backed path record, a compressed base64 record (the source also
stores `compression_ratio = len(compressed)/len(original)`; the two
lengths are kept), or a plain base64 record. -/
inductive Desc where
  | filePath (path : List Char)
  | compressedB64 (data : List Char) (clen olen : Nat)
  | base64 (data : List Char)
deriving DecidableEq

/-- Whether a descriptor is the plain inline (`"type": "base64"`)
variant. -/
def isInlineDesc : Desc → Bool
  | .base64 _ => true
  | _ => false

/-- The payload a descriptor carries (used only under the
all-inline guard, where every descriptor is `.base64`). -/
def inlineData : Desc → List Char
  | .base64 d => d
  | .compressedB64 d _ _ => d
  | .filePath p => p

/-- The `working_images` name/payload pairs (server.py:536-539): dict
entries as-is, sequence elements named `image_i`. -/
def workingImages : Images → List (List Char × List Char)
  | .dict entries => entries
  | .list datas => datas.enum.map (fun p => (("image_" ++ toString p.1).data, p.2))

/-- The automatic-mode resolution of `manage_response_size`
(server.py:541-570): below-or-at budget keeps base64; above budget,
trial-compress the first working image and pick `compressed` exactly
when `len(compressed)/len(data) < 0.7` (cross-multiplied here), else
`file_path`.  A compression failure (or the `ZeroDivisionError` on an
empty payload, both swallowed by the bare `except`) also yields
`file_path`. -/
def resolveFormat (env : RSEnv) (imgs : Images) (fmt : String) (maxSize : Nat) :
    String :=
  if fmt = "auto" then
    let currentSize := estimate_response_size imgs
    if currentSize > maxSize then
      let tried :=
        match (workingImages imgs).head? with
        | some (_, data) =>
          match env.compress data with
          | .ok compressed =>
            if 10 * compressed.length < 7 * data.length then "compressed" else "auto"
          | .error _ => "auto"
        | Option.none => "auto"
      if tried = "auto" then "file_path" else tried
    else "base64"
  else fmt

/-- The per-image materialization of `manage_response_size`
(server.py:575-611): `file_path` saves (failures propagate),
`compressed` recompresses with a silent per-image downgrade to the
plain base64 descriptor on failure, and every other format string
takes the final `else` branch and produces the plain base64
descriptor. -/
def processImage (env : RSEnv) (fmt : String) (name data : List Char) :
    Except PErr Desc :=
  if fmt = "file_path" then
    match save_image_to_file env data (env.mkFilename name) with
    | .ok p => .ok (.filePath p)
    | .error e => .error e
  else if fmt = "compressed" then
    match env.compress data with
    | .ok c => .ok (.compressedB64 c c.length data.length)
    | .error _ => .ok (.base64 data)
  else .ok (.base64 data)

/-- The result-building loop of `manage_response_size`: descriptors are
assigned into the `result` dict in order (`assocSet` mirrors Python
dict assignment). -/
def processImages (env : RSEnv) (fmt : String) :
    List (List Char × List Char) → List (List Char × Desc) →
    Except PErr (List (List Char × Desc))
  | [], acc => .ok acc
  | (name, data) :: rest, acc =>
    match processImage env fmt name data with
    | .ok d => processImages env fmt rest (assocSet name d acc)
    | .error e => .error e

/-- The shapes `manage_response_size` returns: the backward-compatible
plain name-to-payload mapping, a name-to-descriptor mapping, or a
sequence of descriptors. -/
inductive RSResult where
  | dictPlain (entries : List (List Char × List Char))
  | dictDesc (entries : List (List Char × Desc))
  | listDesc (ds : List Desc)
deriving DecidableEq

/-- `manage_response_size` (server.py:504-620): resolve the output
format (automatic mode picks base64/compressed/file_path by size and a
trial compression), materialize every image, and return in the input
shape — collapsing a mapping whose descriptors are all plain base64 to
the plain name-to-payload mapping. -/
def manage_response_size (env : RSEnv) (imgs : Images) (fmt : String) (maxSize : Nat) :
    Except PErr RSResult :=
  let fmt2 := resolveFormat env imgs fmt maxSize
  match processImages env fmt2 (workingImages imgs) [] with
  | .error e => .error e
  | .ok result =>
    match imgs with
    | .dict _ =>
      if result.all (fun p => isInlineDesc p.2) then
        .ok (.dictPlain (result.map (fun p => (p.1, inlineData p.2))))
      else .ok (.dictDesc result)
    | .list _ => .ok (.listDesc (result.map (·.2)))

/-- Python truthiness of an `Optional[str]`: `None` and the empty
string are both falsy. -/
def pyTruthyOptStr : Option (List Char) → Bool
  | Option.none => false
  | some s => !s.isEmpty

/-- The mutual-exclusion validation at the top of `render_single`
(server.py:675-677): `if bool(scad_content) == bool(scad_file)` raise,
before any parsing or rendering. -/
def renderSingleSourceCheck (scadContent scadFile : Option (List Char)) :
    Except PErr Unit :=
  if pyTruthyOptStr scadContent = pyTruthyOptStr scadFile then
    .error (.value "Exactly one of scad_content or scad_file must be provided")
  else .ok ()

/-- A Python-whitespace character is not a digit. -/
theorem space_not_digit (c : Char) (h : isPySpace c = true) : c.isDigit = false := by
  simp only [isPySpace, Bool.or_eq_true, decide_eq_true_eq] at h
  rcases h with ((((h | h) | h) | h) | h) | h <;> subst h <;> decide

/-- A digit is not Python whitespace. -/
theorem digit_not_space (c : Char) (h : c.isDigit = true) : isPySpace c = false := by
  cases hs : isPySpace c with
  | false => rfl
  | true => rw [space_not_digit c hs] at h; exact absurd h (by decide)

/-- `pyStripLeft` keeps a list whose head is not whitespace. -/
theorem pyStripLeft_cons_false (c : Char) (l : List Char) (h : isPySpace c = false) :
    pyStripLeft (c :: l) = c :: l := by
  simp [pyStripLeft, h]

/-- `pyStripLeft` drops an all-whitespace prefix. -/
theorem pyStripLeft_spaces_append (ws l : List Char)
    (h : ∀ c ∈ ws, isPySpace c = true) : pyStripLeft (ws ++ l) = pyStripLeft l := by
  induction ws with
  | nil => rfl
  | cons c ws ih =>
    rw [List.cons_append]
    simp only [pyStripLeft, h c (by simp)]
    exact ih (fun x hx => h x (by simp [hx]))

/-- `pyStrip` of whitespace, a core with non-whitespace first and last
characters, and more whitespace, is the core. -/
theorem pyStrip_sandwich (sp1 sp2 m : List Char)
    (h1 : ∀ c ∈ sp1, isPySpace c = true) (h2 : ∀ c ∈ sp2, isPySpace c = true)
    (hm : m ≠ [])
    (hh : ∀ c, m.head? = some c → isPySpace c = false)
    (hl : ∀ c, m.getLast? = some c → isPySpace c = false) :
    pyStrip (sp1 ++ m ++ sp2) = m := by
  obtain ⟨c, m', rfl⟩ := List.exists_cons_of_ne_nil hm
  have hc : isPySpace c = false := hh c rfl
  have hrev : (c :: m').reverse ≠ [] := by simp
  obtain ⟨c2, r2, hr⟩ := List.exists_cons_of_ne_nil hrev
  have hc2 : isPySpace c2 = false := by
    apply hl
    rw [← List.head?_reverse, hr]
    rfl
  unfold pyStrip
  rw [List.append_assoc, pyStripLeft_spaces_append sp1 _ h1,
    show (c :: m') ++ sp2 = c :: (m' ++ sp2) from rfl,
    pyStripLeft_cons_false c _ hc,
    show c :: (m' ++ sp2) = (c :: m') ++ sp2 from rfl,
    List.reverse_append,
    pyStripLeft_spaces_append _ _ (fun x hx => h2 x (List.mem_reverse.mp hx)),
    hr, pyStripLeft_cons_false c2 _ hc2, ← hr, List.reverse_reverse]

/-- `pyStrip` keeps a list that contains no whitespace at all. -/
theorem pyStrip_no_space (l : List Char) (h : ∀ c ∈ l, isPySpace c = false) :
    pyStrip l = l := by
  cases hl : l with
  | nil => rfl
  | cons c m =>
    subst hl
    have := pyStrip_sandwich [] [] (c :: m) (by simp) (by simp) (by simp)
      (fun x hx => h x (by rw [List.head?_cons] at hx; simp [Option.some_inj.mp hx]))
      (fun x hx => h x (by
        obtain ⟨hne, rfl⟩ := List.mem_getLast?_eq_getLast (Option.mem_def.mpr hx)
        exact List.getLast_mem hne))
    simpa using this

/-- Splitting a list that does not contain the separator gives the
one-element answer. -/
theorem pySplitChar_not_mem (sep : Char) (l : List Char) (h : sep ∉ l) :
    pySplitChar sep l = [l] := by
  induction l with
  | nil => rfl
  | cons c rest ih =>
    have hc : ¬ c = sep := fun e => h (by simp [e])
    have hr := ih (fun hm => h (by simp [hm]))
    simp [pySplitChar, hc, hr]

/-- Splitting around a single separator occurrence gives the two
surrounding parts. -/
theorem pySplitChar_single_sep (sep : Char) (a b : List Char)
    (ha : sep ∉ a) (hb : sep ∉ b) :
    pySplitChar sep (a ++ sep :: b) = [a, b] := by
  induction a with
  | nil => simp [pySplitChar, pySplitChar_not_mem sep b hb]
  | cons c a ih =>
    have hc : ¬ c = sep := fun e => ha (by simp [e])
    have hr := ih (fun hm => ha (by simp [hm]))
    simp [pySplitChar, hc, hr]

/-- `pySplitOnce` at the first separator occurrence. -/
theorem pySplitOnce_first (sep : Char) (k rest : List Char) (h : sep ∉ k) :
    pySplitOnce sep (k ++ sep :: rest) = some (k, rest) := by
  induction k with
  | nil => simp [pySplitOnce]
  | cons c k ih =>
    have hc : ¬ c = sep := fun e => h (by simp [e])
    simp [pySplitOnce, hc, ih (fun hm => h (by simp [hm]))]

/-- `pyIntParseStr` accepts any nonempty all-digit string and returns
its decimal value. -/
theorem pyIntParseStr_digits (w : List Char) (hw : w ≠ [])
    (hd : ∀ c ∈ w, c.isDigit = true) :
    pyIntParseStr w = some (digitsToNat w) := by
  have hstrip : pyStrip w = w :=
    pyStrip_no_space w (fun c hc => digit_not_space c (hd c hc))
  obtain ⟨c, w', rfl⟩ := List.exists_cons_of_ne_nil hw
  have hc : c.isDigit = true := hd c (by simp)
  have hplus : ¬ c = '+' := fun e => by subst e; exact absurd hc (by decide)
  have hminus : ¬ c = '-' := fun e => by subst e; exact absurd hc (by decide)
  have hall : (c :: w').all Char.isDigit = true := List.all_eq_true.mpr hd
  unfold pyIntParseStr
  rw [hstrip]
  simp [hplus, hminus, hall]

/-- A concrete oracle environment for the concrete instances below:
compression always succeeds with the one-character payload `A`, saving
always succeeds with path `p`, and the generated filename is the image
name itself. -/
def envDemo : RSEnv where
  compress := fun _ => .ok "A".data
  save := fun _ _ => .ok "p".data
  mkFilename := fun n => n

/-- C7: every normalizer returns the default unchanged when the raw
value is the absent sentinel `None`.  (In the source each of these is
literally `return default`, so the returned object is the default by
identity; the embedding certifies the value-level part of that.) -/
theorem c7_absent_returns_default :
    (∀ d, parse_camera_param CamParam.none d = .ok d)
  ∧ (∀ d, parse_image_size_param SizeParam.none d = .ok d)
  ∧ (∀ d, parse_list_param ListParam.none d = .ok d)
  ∧ (∀ d, parse_dict_param DictParam.none d = .ok d) :=
  ⟨fun _ => rfl, fun _ => rfl, fun _ => rfl, fun _ => rfl⟩

/-- C10: in `render_single`, an empty `scad_content` string is falsy,
so supplying it with no `scad_file` trips the truthiness-based
mutual-exclusion check exactly as if nothing had been supplied; in
fact the check cannot distinguish the empty string from `None` for any
value of the other argument. -/
theorem c10_empty_content_exclusion :
    (renderSingleSourceCheck (some []) Option.none =
      .error (.value "Exactly one of scad_content or scad_file must be provided"))
  ∧ ∀ f, renderSingleSourceCheck (some []) f = renderSingleSourceCheck Option.none f := by
  refine ⟨rfl, fun f => ?_⟩
  cases f <;> rfl

/-- C3 (code bug): `parse_image_size_param` accepts a zero dimension —
`[0, 600]` is returned as-is and the string `0x0` yields `[0, 0]` —
although the specified invariant (width > 0 and height > 0) is also
what the repository's own test suite expects
(`test_edge_cases.py::test_extreme_image_sizes` asserts that
`parse_image_size_param([0, 600], [])` raises `ValueError`). -/
theorem c3_zero_size_accepted :
    parse_image_size_param (SizeParam.list [PyVal.int 0, PyVal.int 600]) [800, 600]
      = .ok [0, 600]
  ∧ parse_image_size_param (SizeParam.str "0x0".data) [800, 600] = .ok [0, 0] :=
  ⟨rfl, rfl⟩

/-- C2 counterexample: the string `\x7bx=10\x7d` starts with a brace
and fails JSON decoding, yet `parse_dict_param` does not raise — it
falls through to the key=value fallback and returns a dict. -/
theorem c2_counterexample :
    parse_dict_param (DictParam.str "\x7bx=10\x7d".data) []
      = .ok [("\x7bx".data, PyVal.str "10\x7d".data)] := rfl

/-- C2 amended: a trimmed string starting with a brace whose JSON
decode fails is NOT rejected immediately; it falls through to the
key=value fallback whenever it contains `=`, and raises only when it
contains no `=`. -/
theorem c2_brace_json_failure_fallback (s : List Char) (d : List (List Char × PyVal))
    (hs : pyStrip s = s) (hb : s.head? = some '\x7b')
    (hj : pyJsonLoads s = Option.none) :
    parse_dict_param (DictParam.str s) d =
      if s.contains '=' then .ok (kvFallback s)
      else .error (.value "Cannot parse dict from type str") := by
  simp [parse_dict_param, hs, hb, hj]

/-- Witness for the C2 amended theorem at a concrete input. -/
theorem c2_fallback_witness :
    parse_dict_param (DictParam.str "\x7ba=1\x7d".data) []
      = .ok [("\x7ba".data, PyVal.str "1\x7d".data)] :=
  (c2_brace_json_failure_fallback "\x7ba=1\x7d".data [] rfl rfl rfl).trans rfl

/-- C1 counterexample: an unsupported output-format string does not
raise; `manage_response_size` processes the image and returns the
plain inline mapping. -/
theorem c1_counterexample :
    manage_response_size envDemo (Images.dict [("a".data, "AAAA".data)]) "bogus" 25000
      = .ok (.dictPlain [("a".data, "AAAA".data)]) := rfl

/-- C1 amended: any output-format string other than `auto`,
`file_path` and `compressed` falls into the final `else` branch of the
per-image loop and is treated exactly like `base64` (inline) mode; no
validation error is raised. -/
theorem c1_unknown_format_treated_as_inline (env : RSEnv) (imgs : Images)
    (maxSize : Nat) (fmt : String)
    (h1 : fmt ≠ "auto") (h2 : fmt ≠ "file_path") (h3 : fmt ≠ "compressed") :
    manage_response_size env imgs fmt maxSize
      = manage_response_size env imgs "base64" maxSize := by
  have hres : resolveFormat env imgs fmt maxSize = fmt := by
    simp [resolveFormat, h1]
  have hres2 : resolveFormat env imgs "base64" maxSize = "base64" := by
    simp [resolveFormat]
  have hpi : ∀ n d2, processImage env fmt n d2 = processImage env "base64" n d2 := by
    intro n d2
    simp [processImage, h2, h3]
  have hall : ∀ ws acc, processImages env fmt ws acc = processImages env "base64" ws acc := by
    intro ws
    induction ws with
    | nil => intro acc; rfl
    | cons p rest ih =>
      intro acc
      obtain ⟨n, d2⟩ := p
      simp only [processImages, hpi]
      cases processImage env "base64" n d2 with
      | ok d3 => exact ih _
      | error e => rfl
  unfold manage_response_size
  rw [hres, hres2]
  simp only [hall]

/-- Witness for the C1 amended theorem at a concrete format string. -/
theorem c1_unknown_format_witness :
    manage_response_size envDemo (Images.dict [("b".data, "BB".data)]) "inline" 25000
      = manage_response_size envDemo (Images.dict [("b".data, "BB".data)]) "base64" 25000 :=
  c1_unknown_format_treated_as_inline envDemo (Images.dict [("b".data, "BB".data)]) 25000
    "inline" (by decide) (by decide) (by decide)

/-- C5 counterexample: with a payload set whose estimate equals the
budget exactly (estimate 3, budget 3 — so the estimate is NOT below
the budget) and a first payload whose trial compression ratio would be
1/4 < 0.7, automatic mode still resolves to inline (base64), not to
compressed: the source only escalates when the estimate strictly
exceeds the budget. -/
theorem c5_counterexample :
    ¬ (estimate_response_size (Images.dict [("a".data, "AAAA".data)]) < 3)
  ∧ envDemo.compress "AAAA".data = .ok "A".data
  ∧ 10 * ("A".data).length < 7 * ("AAAA".data).length
  ∧ resolveFormat envDemo (Images.dict [("a".data, "AAAA".data)]) "auto" 3 = "base64" :=
  ⟨by decide, rfl, by decide, rfl⟩

/-- C5 amended: automatic mode resolves to inline (base64) whenever
the estimate is at or below the budget; only when the estimate
strictly exceeds the budget does it trial-compress the first payload,
choosing compressed exactly when the cross-multiplied compression
ratio is below 0.7 and file-backed otherwise (also on a trial failure
or an empty payload set). -/
theorem c5_auto_mode_resolution (env : RSEnv) (imgs : Images) (maxSize : Nat) :
    (estimate_response_size imgs ≤ maxSize →
      resolveFormat env imgs "auto" maxSize = "base64")
  ∧ (maxSize < estimate_response_size imgs →
      resolveFormat env imgs "auto" maxSize =
        match (workingImages imgs).head? with
        | some p =>
          match env.compress p.2 with
          | .ok c => if 10 * c.length < 7 * p.2.length then "compressed" else "file_path"
          | .error _ => "file_path"
        | Option.none => "file_path") := by
  constructor
  · intro h
    simp [resolveFormat, Nat.not_lt.mpr h]
  · intro h
    unfold resolveFormat
    rw [if_pos (rfl : ("auto" : String) = "auto"),
      if_pos (show estimate_response_size imgs > maxSize from h)]
    cases hhd : (workingImages imgs).head? with
    | none => rfl
    | some p =>
      obtain ⟨nm, data⟩ := p
      simp only []
      cases hc : env.compress data with
      | error e => rfl
      | ok c =>
        by_cases hr : 10 * c.length < 7 * data.length
        · simp [hr]
          decide
        · simp [hr]

/-- Witness for the C5 amended theorem: a small payload set under a
large budget resolves to inline. -/
theorem c5_auto_mode_witness :
    resolveFormat envDemo (Images.dict [("a".data, "AAAA".data)]) "auto" 25000 = "base64" :=
  (c5_auto_mode_resolution envDemo (Images.dict [("a".data, "AAAA".data)]) 25000).1
    (by decide)

/-- The descriptor that compressed-mode materialization produces for
one image: the compressed payload with its two lengths on success, the
untouched original payload as a plain inline descriptor on failure. -/
def compressDesc (env : RSEnv) (data : List Char) : Desc :=
  match env.compress data with
  | .ok c => .compressedB64 c c.length data.length
  | .error _ => .base64 data

/-- C6: in compressed mode `manage_response_size` never raises, and
the materialization loop maps every image either to its compressed
descriptor or — when its compression fails — to the plain inline
descriptor carrying the original bytes unchanged. -/
theorem c6_compressed_mode_total (env : RSEnv) :
    (∀ imgs maxSize, ∃ r, manage_response_size env imgs "compressed" maxSize = .ok r)
  ∧ (∀ ws acc, processImages env "compressed" ws acc =
      .ok (ws.foldl (fun a p => assocSet p.1 (compressDesc env p.2) a) acc)) := by
  have hproc : ∀ ws acc, processImages env "compressed" ws acc =
      .ok (ws.foldl (fun a p => assocSet p.1 (compressDesc env p.2) a) acc) := by
    intro ws
    induction ws with
    | nil => intro acc; rfl
    | cons p rest ih =>
      intro acc
      obtain ⟨n, d2⟩ := p
      have hpi : processImage env "compressed" n d2 = .ok (compressDesc env d2) := by
        cases hc : env.compress d2 <;> simp [processImage, compressDesc, hc]
      simp only [processImages, hpi, List.foldl]
      exact ih _
  refine ⟨fun imgs maxSize => ?_, hproc⟩
  unfold manage_response_size
  have hres : resolveFormat env imgs "compressed" maxSize = "compressed" := by
    simp [resolveFormat]
  rw [hres]
  simp only [hproc]
  have hite : ∀ (c : Prop) (inst : Decidable c) (a b : RSResult),
      ∃ r, (if c then (Except.ok a : Except PErr RSResult) else Except.ok b) = .ok r := by
    intro c inst a b
    by_cases hcc : c
    · exact ⟨a, if_pos hcc⟩
    · exact ⟨b, if_neg hcc⟩
  cases imgs with
  | dict entries => exact hite _ _ _ _
  | list datas => exact ⟨_, rfl⟩

/-- In base64 (inline) mode the materialization loop is total and
assigns every image its plain inline descriptor. -/
theorem processImages_base64 (env : RSEnv) :
    ∀ ws acc, processImages env "base64" ws acc =
      .ok (ws.foldl (fun a p => assocSet p.1 (Desc.base64 p.2) a) acc) := by
  intro ws
  induction ws with
  | nil => intro acc; rfl
  | cons p rest ih =>
    intro acc
    obtain ⟨n, d2⟩ := p
    have hpi : processImage env "base64" n d2 = .ok (Desc.base64 d2) := by
      simp [processImage]
    simp only [processImages, hpi, List.foldl]
    exact ih _

/-- `assocSet` preserves a pointwise boolean invariant when the
inserted pair satisfies it. -/
theorem assocSet_all {α β : Type} [DecidableEq α] (P : α × β → Bool) (k : α) (v : β)
    (l : List (α × β)) (hv : P (k, v) = true) (hl : l.all P = true) :
    (assocSet k v l).all P = true := by
  induction l with
  | nil => simp [assocSet, hv]
  | cons q rest ih =>
    obtain ⟨k2, v2⟩ := q
    simp only [List.all_cons, Bool.and_eq_true] at hl
    by_cases hk : k = k2
    · subst hk
      simp [assocSet, hv, hl.2]
    · simp [assocSet, hk, hl.1, hv, ih hl.2]

/-- Every descriptor produced by the base64-mode loop is inline. -/
theorem foldl_assocSet_base64_all (ws : List (List Char × List Char))
    (acc : List (List Char × Desc)) (hacc : acc.all (fun p => isInlineDesc p.2) = true) :
    ((ws.foldl (fun a p => assocSet p.1 (Desc.base64 p.2) a) acc).all
      (fun p => isInlineDesc p.2)) = true := by
  induction ws generalizing acc with
  | nil => exact hacc
  | cons p rest ih =>
    simp only [List.foldl]
    exact ih _ (assocSet_all _ _ _ _ rfl hacc)

/-- Unwrapping inline descriptors commutes with `assocSet`. -/
theorem assocSet_map_inline (k : List Char) (v : List Char) (l : List (List Char × Desc)) :
    (assocSet k (Desc.base64 v) l).map (fun p => (p.1, inlineData p.2))
      = assocSet k v (l.map (fun p => (p.1, inlineData p.2))) := by
  induction l with
  | nil => rfl
  | cons q rest ih =>
    obtain ⟨k2, v2⟩ := q
    by_cases hk : k = k2
    · simp [assocSet, hk, inlineData]
    · simp [assocSet, hk, ih]

/-- Unwrapping inline descriptors commutes with the base64-mode
loop. -/
theorem foldl_assocSet_base64_map (ws : List (List Char × List Char))
    (acc : List (List Char × Desc)) :
    (ws.foldl (fun a p => assocSet p.1 (Desc.base64 p.2) a) acc).map
        (fun p => (p.1, inlineData p.2))
      = ws.foldl (fun a p => assocSet p.1 p.2 a)
          (acc.map (fun p => (p.1, inlineData p.2))) := by
  induction ws generalizing acc with
  | nil => rfl
  | cons p rest ih =>
    simp only [List.foldl]
    rw [ih, assocSet_map_inline]

/-- C8: for a mapping input, whenever every resolved descriptor is of
the inline variant the response collapses to the plain name-to-payload
mapping with no descriptor wrapper; in particular, in automatic mode a
payload set whose estimate is below the budget yields exactly the
original plain mapping (modulo Python dict assignment, expressed by
the `assocSet` fold, which is the identity for the duplicate-free
names a Python dict input guarantees). -/
theorem c8_all_inline_plain_mapping (env : RSEnv)
    (entries : List (List Char × List Char)) (fmt : String) (maxSize : Nat) :
    (∀ rs, processImages env (resolveFormat env (.dict entries) fmt maxSize) entries []
        = .ok rs →
      rs.all (fun p => isInlineDesc p.2) = true →
      manage_response_size env (.dict entries) fmt maxSize
        = .ok (.dictPlain (rs.map (fun p => (p.1, inlineData p.2)))))
  ∧ (estimate_response_size (.dict entries) < maxSize →
      manage_response_size env (.dict entries) "auto" maxSize
        = .ok (.dictPlain (entries.foldl (fun a p => assocSet p.1 p.2 a) []))) := by
  constructor
  · intro rs hrs hall
    unfold manage_response_size
    simp only [workingImages]
    rw [hrs]
    simp only [hall, if_true]
  · intro h
    have hres : resolveFormat env (Images.dict entries) "auto" maxSize = "base64" := by
      simp [resolveFormat, Nat.not_lt.mpr (Nat.le_of_lt h)]
    unfold manage_response_size
    rw [hres]
    simp only [workingImages]
    simp only [processImages_base64 env entries []]
    rw [if_pos (foldl_assocSet_base64_all entries [] rfl)]
    rw [foldl_assocSet_base64_map entries []]
    rfl

/-- Witness for C8 at a concrete input: a one-image mapping under a
large budget comes back as the plain mapping itself. -/
theorem c8_plain_mapping_witness :
    estimate_response_size (Images.dict [("a".data, "AA".data)]) < 1000
  ∧ manage_response_size envDemo (Images.dict [("a".data, "AA".data)]) "auto" 1000
      = .ok (.dictPlain [("a".data, "AA".data)]) :=
  ⟨by decide,
   ((c8_all_inline_plain_mapping envDemo [("a".data, "AA".data)] "auto" 1000).2
     (by decide)).trans rfl⟩

/-- A character reported by `head?` is a member of the list. -/
theorem mem_of_head?_eq (l : List Char) (c : Char) (h : l.head? = some c) : c ∈ l := by
  cases l with
  | nil => cases h
  | cons x xs =>
    rw [List.head?_cons] at h
    rw [← Option.some_inj.mp h]
    exact List.mem_cons_self x xs

/-- A character reported by `getLast?` is a member of the list. -/
theorem mem_of_getLast?_eq (l : List Char) (c : Char) (h : l.getLast? = some c) : c ∈ l := by
  obtain ⟨hne, rfl⟩ := List.mem_getLast?_eq_getLast (Option.mem_def.mpr h)
  exact List.getLast_mem hne

/-- Stripping whitespace padding around an entirely non-whitespace
core keeps exactly the core. -/
theorem pyStrip_pad (sp1 sp2 m : List Char) (hm : m ≠ [])
    (hall : ∀ c ∈ m, isPySpace c = false)
    (h1 : ∀ c ∈ sp1, isPySpace c = true) (h2 : ∀ c ∈ sp2, isPySpace c = true) :
    pyStrip (sp1 ++ m ++ sp2) = m :=
  pyStrip_sandwich sp1 sp2 m h1 h2 hm
    (fun c hc => hall c (mem_of_head?_eq m c hc))
    (fun c hc => hall c (mem_of_getLast?_eq m c hc))

/-- C4 counterexample: the separator of the `<W>x<H>` form is NOT
case-insensitive — an uppercase `X` is rejected with the final
catch-all error, while the same size with a lowercase `x` parses. -/
theorem c4_uppercase_separator_counterexample :
    parse_image_size_param (SizeParam.str "800X600".data) [800, 600]
      = .error (.value "Cannot parse image size from 800X600")
  ∧ parse_image_size_param (SizeParam.str "800x600".data) [800, 600] = .ok [800, 600] :=
  ⟨rfl, rfl⟩

/-- C4 amended: for all positive decimal numerals `a` and `b`, the
string form whitespace + `a` + whitespace + lowercase `x` + whitespace
+ `b` + whitespace normalizes to `[a, b]` — whitespace is trimmed
around each component, but only the lowercase separator `x` is
accepted. -/
theorem c4_lowercase_x_whitespace (s1 s2 s3 s4 a b : List Char) (d : List Int)
    (hs1 : ∀ c ∈ s1, isPySpace c = true) (hs2 : ∀ c ∈ s2, isPySpace c = true)
    (hs3 : ∀ c ∈ s3, isPySpace c = true) (hs4 : ∀ c ∈ s4, isPySpace c = true)
    (ha : a ≠ []) (had : ∀ c ∈ a, c.isDigit = true)
    (hb : b ≠ []) (hbd : ∀ c ∈ b, c.isDigit = true) :
    parse_image_size_param
        (SizeParam.str (s1 ++ ((a ++ s2) ++ ('x' :: (s3 ++ b))) ++ s4)) d
      = .ok [(digitsToNat a : Int), (digitsToNat b : Int)] := by
  obtain ⟨ca, a2, rfl⟩ := List.exists_cons_of_ne_nil ha
  have hca : ca.isDigit = true := had ca (by simp)
  have hme : ((ca :: a2) ++ s2) ++ ('x' :: (s3 ++ b)) ≠ [] := by simp
  have hmhead : (((ca :: a2) ++ s2) ++ ('x' :: (s3 ++ b))).head? = some ca := by simp
  have hmlast : (((ca :: a2) ++ s2) ++ ('x' :: (s3 ++ b))).getLast? = b.getLast? := by
    rw [List.getLast?_append_of_ne_nil _ (by simp : ('x' :: (s3 ++ b)) ≠ [])]
    have hx := List.getLast?_append_of_ne_nil ['x'] (show s3 ++ b ≠ [] by simp [hb])
    rw [show ('x' :: (s3 ++ b)) = ['x'] ++ (s3 ++ b) from rfl, hx,
      List.getLast?_append_of_ne_nil s3 hb]
  have hhead2 : ∀ c, (((ca :: a2) ++ s2) ++ ('x' :: (s3 ++ b))).head? = some c →
      isPySpace c = false := by
    intro c hc
    rw [hmhead] at hc
    rw [← Option.some_inj.mp hc]
    exact digit_not_space ca hca
  have hlast2 : ∀ c, (((ca :: a2) ++ s2) ++ ('x' :: (s3 ++ b))).getLast? = some c →
      isPySpace c = false := by
    intro c hc
    rw [hmlast] at hc
    exact digit_not_space c (hbd c (mem_of_getLast?_eq b c hc))
  have hstrip := pyStrip_sandwich s1 s4 _ hs1 hs4 hme hhead2 hlast2
  have hcondbr : ¬ ((((ca :: a2) ++ s2) ++ ('x' :: (s3 ++ b))).head? = some '[') := by
    intro hcc
    rw [hmhead] at hcc
    have := Option.some_inj.mp hcc
    subst this
    exact absurd hca (by decide)
  have hcontx : (((ca :: a2) ++ s2) ++ ('x' :: (s3 ++ b))).contains 'x' = true := by simp
  have hxa : 'x' ∉ (ca :: a2) ++ s2 := by
    intro hmem
    rcases List.mem_append.mp hmem with h1 | h1
    · exact absurd (had 'x' h1) (by decide)
    · exact absurd (hs2 'x' h1) (by decide)
  have hxb : 'x' ∉ s3 ++ b := by
    intro hmem
    rcases List.mem_append.mp hmem with h1 | h1
    · exact absurd (hs3 'x' h1) (by decide)
    · exact absurd (hbd 'x' h1) (by decide)
  have hsplitx := pySplitChar_single_sep 'x' ((ca :: a2) ++ s2) (s3 ++ b) hxa hxb
  have hstripa : pyStrip ((ca :: a2) ++ s2) = ca :: a2 := by
    have := pyStrip_pad [] s2 (ca :: a2) (by simp)
      (fun c hc => digit_not_space c (had c hc)) (by simp) hs2
    simpa using this
  have hstripb : pyStrip (s3 ++ b) = b := by
    have := pyStrip_pad s3 [] b hb
      (fun c hc => digit_not_space c (hbd c hc)) hs3 (by simp)
    simpa using this
  have hinta := pyIntParseStr_digits (ca :: a2) (by simp) had
  have hintb := pyIntParseStr_digits b hb hbd
  simp only [parse_image_size_param, hstrip]
  rw [if_neg hcondbr]
  simp only [hcontx, if_true, hsplitx, hstripa, hstripb, hinta, hintb]
  rfl

/-- Witness for the C4 amended theorem at a concrete padded size
string. -/
theorem c4_lowercase_witness :
    parse_image_size_param (SizeParam.str " 1920 x 1080 ".data) [] = .ok [1920, 1080] :=
  c4_lowercase_x_whitespace [' '] [' '] [' '] [' '] "1920".data "1080".data []
    (by decide) (by decide) (by decide) (by decide)
    (by decide) (by decide) (by decide) (by decide)

/-- C9: the key=value fallback coerces values in the specified order —
`x=10,y=20.5,active=true` produces an int, a float and a bool — and a
pair whose value is empty normalizes to the empty-string value (for
every well-formed key), not an error and not omission. -/
theorem c9_kv_coercion :
    (parse_dict_param (DictParam.str "x=10,y=20.5,active=true".data) []
      = .ok [("x".data, PyVal.int 10), ("y".data, PyVal.float (mkRat 41 2)),
             ("active".data, PyVal.bool true)])
  ∧ (∀ (k : List Char) (d : List (List Char × PyVal)), k ≠ [] →
      (∀ c ∈ k, isPySpace c = false ∧ c ≠ ',' ∧ c ≠ '=' ∧ c ≠ '\x7b') →
      parse_dict_param (DictParam.str (k ++ ['='])) d = .ok [(k, PyVal.str [])]) := by
  refine ⟨rfl, fun k d hk hcs => ?_⟩
  have hnsp : ∀ c ∈ k ++ ['='], isPySpace c = false := by
    intro c hc
    rcases List.mem_append.mp hc with h1 | h1
    · exact (hcs c h1).1
    · simp at h1; subst h1; decide
  have hstrip : pyStrip (k ++ ['=']) = k ++ ['='] := pyStrip_no_space _ hnsp
  have hkstrip : pyStrip k = k := pyStrip_no_space _ (fun c hc => (hcs c hc).1)
  have hne : '=' ∉ k := fun hmem => absurd rfl (hcs '=' hmem).2.2.1
  have hnc : ',' ∉ k ++ ['='] := by
    intro hmem
    rcases List.mem_append.mp hmem with h1 | h1
    · exact absurd rfl (hcs ',' h1).2.1
    · exact absurd (List.mem_singleton.mp h1) (by decide : ¬ (',' : Char) = '=')
  have hsplit := pySplitChar_not_mem ',' (k ++ ['=']) hnc
  have honce := pySplitOnce_first '=' k [] hne
  have hcont : (k ++ ['=']).contains '=' = true := by simp
  obtain ⟨c0, k0, rfl⟩ := List.exists_cons_of_ne_nil hk
  have hcond : ¬ (((c0 :: k0) ++ ['=']).head? = some '\x7b') := by
    rw [List.cons_append, List.head?_cons]
    simp only [Option.some.injEq]
    exact (hcs c0 (by simp)).2.2.2
  simp only [parse_dict_param, hstrip]
  rw [if_neg hcond]
  simp only [hcont, if_true, kvFallback, hsplit, List.foldl, hstrip, honce, hkstrip]
  rfl

/-- Witness for the C9 empty-value contract at a concrete key. -/
theorem c9_empty_value_witness :
    parse_dict_param (DictParam.str "key=".data) [] = .ok [("key".data, PyVal.str [])] :=
  c9_kv_coercion.2 "key".data [] (by decide) (by decide)
